import Mathlib

/-!
Verification development for the mailprocessor repository.

The Python source is shallowly embedded: pure functions become Lean
functions, the mutable processor state (pandas contacts DataFrame, the
statistics dict, the persisted statistics file) becomes explicit state
records, timestamps become integers, floats become rationals, and the
`multiprocessing.Pool` semantics (each worker receives a pickled copy of
the processor, mutations stay in the copy, only the returned result list
reaches the parent) is made explicit in the orchestrator model.
-/

namespace MailProcessor

/-- Character-level lowercase, mirroring Python `str.lower()` on the ASCII
inputs used by the detector. -/
def lowerStr (s : String) : String := String.mk (s.data.map Char.toLower)

/-- `startsWithList needle hay` : `needle` is a prefix of `hay`. -/
def startsWithList : List Char → List Char → Bool
  | [], _ => true
  | _ :: _, [] => false
  | a :: as, b :: bs => a == b && startsWithList as bs

/-- `hasSubList needle hay` : `needle` occurs as a contiguous sublist of
`hay`; mirrors Python's `needle in hay` on strings. -/
def hasSubList (needle : List Char) : List Char → Bool
  | [] => startsWithList needle []
  | b :: bs => startsWithList needle (b :: bs) || hasSubList needle bs

/-- Python `needle in haystack` on strings. -/
def strHasSub (haystack needle : String) : Bool :=
  hasSubList needle.data haystack.data

/-! ## Advertisement detector (`mail_reader/utils/ad_detector.py`) -/

/-- The fixed indicator vocabulary `AdvertisementDetector.ad_indicators`. -/
def ad_indicators : List String :=
  ["special offer", "limited time", "discount", "sale",
   "promotion", "deal", "offer", "buy now", "subscribe",
   "unsubscribe", "marketing", "sponsored", "advertisement",
   "exclusive deal", "limited stock", "free shipping",
   "money back guarantee", "best price", "special pricing"]

/-- `AdvertisementDetector.is_advertisement`: lower-case the text, count the
indicators occurring as substrings, classify as advertisement iff the count
is at least 2. -/
def is_advertisement (text : String) : Bool :=
  let text_lower := lowerStr text
  decide (2 ≤ ad_indicators.countP (fun ind => strHasSub text_lower ind))

/-- `AdvertisementDetector.get_ad_indicators_found`: the list of indicators
occurring as substrings of the lower-cased text. -/
def get_ad_indicators_found (text : String) : List String :=
  let text_lower := lowerStr text
  ad_indicators.filter (fun ind => strHasSub text_lower ind)

/-! ## Body extraction (`EmailParser.get_email_content`) -/

/-- One MIME part as seen by `msg.walk()`: its declared content type and its
decoded payload. -/
structure EmailPart where
  contentType : String
  payload : String
deriving DecidableEq

/-- A message: either single-part (its payload) or multipart (the sequence
of parts yielded by `msg.walk()`, container entries included with their
`multipart/...` content types). -/
inductive EmailMessage where
  | single : String → EmailMessage
  | multipart : List EmailPart → EmailMessage

/-- The loop body of `get_email_content` on a multipart message: return the
payload of the first part whose content type is `text/plain`, else-if
`text/html` — a single first-match loop over the walk sequence. -/
def firstTextPart : List EmailPart → Option String
  | [] => none
  | p :: rest =>
    if p.contentType = "text/plain" then some p.payload
    else if p.contentType = "text/html" then some p.payload
    else firstTextPart rest

/-- `EmailParser.get_email_content`. A multipart message with no matching
part falls off the loop and returns `None`. -/
def get_email_content : EmailMessage → Option String
  | .single payload => some payload
  | .multipart parts => firstTextPart parts

/-! ## Unsubscribe URL extraction (`EmailParser.extract_unsubscribe_url`) -/

/-- One left-to-right pass implementing `re.findall(r"<(.+?)>", s)`: in the
`none` state we scan for a `<`; in the `some acc` state we lazily grow the
capture until the first `>` after at least one captured character, any
newline aborting the attempt (`.` does not match a newline, and every retry
position inside the aborted span fails the same way). -/
def angleScan : Option (List Char) → List Char → List String
  | _, [] => []
  | none, c :: cs => angleScan (if c = '<' then some [] else none) cs
  | some acc, c :: cs =>
    if c = '>' ∧ acc ≠ [] then String.mk acc.reverse :: angleScan none cs
    else if c = '\n' then angleScan none cs
    else angleScan (some (c :: acc)) cs

/-- `re.findall(r"<(.+?)>", s)` over a string. -/
def angleTokens (s : String) : List String := angleScan none s.data

/-- The body part of `extract_unsubscribe_url` after the header branch: if
the lower-cased text contains `<html` or `<body`, consult the HTML helper
and return its first hit; otherwise — or when the HTML helper finds
nothing — return the first hit of the plain-text helper, else `None`.
`htmlUrls` stands for `_extract_urls_from_html` (a BeautifulSoup anchor
scan) and `textUrls` for `_extract_urls_from_text` (two regex scans); both
are kept as parameters of the model. -/
def bodySources (htmlUrls textUrls : String → List String) (text : String) : Option String :=
  let htmlHit := strHasSub (lowerStr text) "<html" || strHasSub (lowerStr text) "<body"
  match (if htmlHit then htmlUrls text else []) with
  | u :: _ => some u
  | [] =>
    match textUrls text with
    | u :: _ => some u
    | [] => none

/-- `EmailParser.extract_unsubscribe_url`: if the `List-Unsubscribe` header
value is a nonempty string and `re.findall(r"<(.+?)>", header)` is
nonempty, return its first token unconditionally; only otherwise consult
the body sources. -/
def extract_unsubscribe_url (htmlUrls textUrls : String → List String)
    (text : String) (list_unsubscribe : String) : Option String :=
  if list_unsubscribe ≠ "" then
    match angleTokens list_unsubscribe with
    | u :: _ => some u
    | [] => bodySources htmlUrls textUrls text
  else bodySources htmlUrls textUrls text

/-! ## Contact ledger (`EmailProcessor._update_contacts`) -/

/-- One row of the contacts DataFrame, minus the `email` key column. -/
structure ContactRecord where
  last_contact : Int
  is_advertisement : Bool
  unsubscribe_url : Option String
  total_emails : Nat
  ad_emails : Nat
deriving DecidableEq

/-- The unit exchanged between classification and the aggregator: the
arguments `_update_contacts` receives for one processed message. -/
structure UpdateDelta where
  sender_email : String
  timestamp : Int
  is_advertisement : Bool
  unsubscribe_url : Option String
deriving DecidableEq

/-- Python truthiness of the optional URL (`if unsubscribe_url:`): `None`
and the empty string are falsy. -/
def urlTruthy : Option String → Bool
  | none => false
  | some s => s != ""

/-- The contacts DataFrame: rows in order, keyed by the `email` column. -/
abbrev Ledger := List (String × ContactRecord)

/-- `EmailProcessor._update_contacts`: if the sender is absent, append a
fresh row with counters started at 1 / the ad flag; otherwise rewrite every
row matching the sender (the pandas mask), overwriting `last_contact` and
`is_advertisement`, overwriting `unsubscribe_url` only for a truthy value,
and incrementing the counters. -/
def update_contacts (ledger : Ledger) (sender_email : String) (date : Int)
    (is_ad : Bool) (unsubscribe_url : Option String) : Ledger :=
  if ledger.any (fun row => row.1 == sender_email) then
    ledger.map (fun row =>
      if row.1 == sender_email then
        (row.1,
          { last_contact := date
            is_advertisement := is_ad
            unsubscribe_url :=
              if urlTruthy unsubscribe_url then unsubscribe_url else row.2.unsubscribe_url
            total_emails := row.2.total_emails + 1
            ad_emails := row.2.ad_emails + (if is_ad then 1 else 0) })
      else row)
  else
    ledger ++ [(sender_email,
      { last_contact := date
        is_advertisement := is_ad
        unsubscribe_url := unsubscribe_url
        total_emails := 1
        ad_emails := if is_ad then 1 else 0 })]

/-- The record stored for a sender: the first matching row of the frame. -/
def lookupContact (ledger : Ledger) (sender : String) : Option ContactRecord :=
  (ledger.find? (fun row => row.1 == sender)).map (fun row => row.2)

/-- `_update_contacts` applied to the fields of one delta. -/
def apply_delta (ledger : Ledger) (d : UpdateDelta) : Ledger :=
  update_contacts ledger d.sender_email d.timestamp d.is_advertisement d.unsubscribe_url

/-- A sequence of deltas applied through the aggregator to an empty ledger. -/
def apply_deltas (deltas : List UpdateDelta) : Ledger :=
  deltas.foldl apply_delta []

/-- The number of deltas in the sequence addressed to one sender. -/
def countFor (deltas : List UpdateDelta) (sender : String) : Nat :=
  (deltas.filter (fun d => d.sender_email == sender)).length

/-- Invariant relating a ledger, a sender and the number of deltas applied
for that sender: no deltas means no record, and a record means the message
counter equals the delta count, bounds the ad counter, and is positive. -/
def senderInv (ledger : Ledger) (s : String) (n : Nat) : Prop :=
  (n = 0 ∧ lookupContact ledger s = none) ∨
  (∃ rec, lookupContact ledger s = some rec ∧
    rec.total_emails = n ∧ rec.ad_emails ≤ n ∧ 0 < n)

/-! ## Global statistics (`mail_reader/utils/stats_manager.py`) -/

/-- The statistics record held by `StatsManager.stats` and written to the
stats file; the float `advertisement_rate` is modelled as a rational. -/
structure Stats where
  total_emails_processed : Nat
  total_advertisements : Nat
  unique_senders : Nat
  advertisement_rate : ℚ
  last_processed : Option Int
deriving DecidableEq

/-- The default record `_load_stats` produces when no file exists. -/
def default_stats : Stats :=
  { total_emails_processed := 0
    total_advertisements := 0
    unique_senders := 0
    advertisement_rate := 0
    last_processed := none }

/-- The in-memory mutations of `StatsManager.update_stats`: increment the
totals, recompute the rate from them, stamp `last_processed`; the
`unique_senders` field is not touched. -/
def update_stats (is_ad : Bool) (now : Int) (s : Stats) : Stats :=
  let total := s.total_emails_processed + 1
  let ads := s.total_advertisements + (if is_ad then 1 else 0)
  { s with
    total_emails_processed := total
    total_advertisements := ads
    advertisement_rate := (ads : ℚ) / (total : ℚ) * 100
    last_processed := some now }

/-- A sequence of `update_stats` calls from the default record; each pair
is the ad flag and the timestamp of the call. -/
def run_stats (updates : List (Bool × Int)) : Stats :=
  updates.foldl (fun s u => update_stats u.1 u.2 s) default_stats

/-- The statistics invariant maintained by `update_stats`. -/
def statsInv (s : Stats) : Prop :=
  s.total_advertisements ≤ s.total_emails_processed ∧
  (s.total_emails_processed = 0 → s.advertisement_rate = 0) ∧
  (0 < s.total_emails_processed →
    s.advertisement_rate =
      100 * (s.total_advertisements : ℚ) / (s.total_emails_processed : ℚ))

/-! ## Processor state (`EmailProcessor.process_email`) -/

/-- The mutable state touched by one `process_email` call: the contacts
frame, the in-memory statistics dict, and the persisted statistics file
content. -/
structure ProcState where
  contacts : Ledger
  stats : Stats
  stats_file : Stats
deriving DecidableEq

/-- A processor starting with no contacts file and no stats file. -/
def initial_state : ProcState :=
  { contacts := [], stats := default_stats, stats_file := default_stats }

/-- `StatsManager.update_stats` followed by its `save_stats` call, with an
explicit persistence-failure oracle: the in-memory dict fields are mutated
before `save_stats` runs, so a failing write leaves the in-memory record
updated and the file untouched, and the raised exception propagates
(modelled by the `false` result). -/
def update_stats_and_save (persistFails : Bool) (is_ad : Bool) (now : Int)
    (st : ProcState) : ProcState × Bool :=
  let s := update_stats is_ad now st.stats
  if persistFails then ({ st with stats := s }, false)
  else ({ st with stats := s, stats_file := s }, true)

/-- `EmailProcessor.process_email` at the delta level: the contacts frame
is updated first, then the statistics; the surrounding `try/except` catches
an exception raised during statistics persistence and returns `None`
(the `false` result) with no rollback of the contacts mutation. -/
def process_email (persistFails : Bool) (d : UpdateDelta) (now : Int)
    (st : ProcState) : ProcState × Bool :=
  let st1 := { st with contacts := apply_delta st.contacts d }
  update_stats_and_save persistFails d.is_advertisement now st1

/-- `EmailProcessor.get_statistics`: the reported record takes the totals,
rate and timestamp from the statistics dict but derives `unique_senders`
as `len(self.contacts_df)`. -/
def get_statistics (st : ProcState) : Stats :=
  { total_emails_processed := st.stats.total_emails_processed
    total_advertisements := st.stats.total_advertisements
    unique_senders := st.contacts.length
    advertisement_rate := st.stats.advertisement_rate
    last_processed := st.stats.last_processed }

/-- A sequence of successful `process_email` calls against one state. -/
def run_processor (runs : List (UpdateDelta × Int)) (st : ProcState) : ProcState :=
  runs.foldl (fun s r => (process_email false r.1 r.2 s).1) st

/-! ## Batch orchestrator (`mail_reader/core/email_reader.py`) -/

/-- The fields of the per-message `email_info` record that drive control
flow (the echoed `From`/`Subject`/`Date` header strings and the URL are
carried along unchanged and are elided). `stored_locally` is `none` when
the key was never set. -/
structure EmailInfo where
  is_ad : Bool
  stored_locally : Option Bool
deriving DecidableEq

/-- A fetched raw message, abstracted to what the pipeline derives from it:
`none` when `process_email` fails on it (malformed date and similar),
otherwise the delta it produces. -/
abbrev RawMsg := Option UpdateDelta

/-- The loop body of `EmailReader._process_email_batch` for one
`(msg, msg_num)` pair: run `process_email` against the worker-local
processor state; on success build the `email_info` record, with
`stored_locally` set to the `_store_spam_email` outcome (`archiveOk`)
exactly when spam deletion is enabled and the message is an ad. -/
def batch_step (delete_spam : Bool) (archiveOk : Nat → Bool) (now : Int)
    (st : ProcState) (msg : RawMsg) (msg_num : Nat) :
    ProcState × Option (EmailInfo × Nat) :=
  match msg with
  | none => (st, none)
  | some d =>
    match process_email false d now st with
    | (st1, true) =>
      (st1, some
        ({ is_ad := d.is_advertisement
           stored_locally :=
             if delete_spam && d.is_advertisement then some (archiveOk msg_num) else none },
          msg_num))
    | (st1, false) => (st1, none)

/-- `EmailReader._process_email_batch`: fold the loop body over the batch,
collecting the `(email_info, msg_num)` results in order. -/
def process_email_batch (delete_spam : Bool) (archiveOk : Nat → Bool) (now : Int) :
    ProcState → List (RawMsg × Nat) → ProcState × List (EmailInfo × Nat)
  | st, [] => (st, [])
  | st, (msg, n) :: rest =>
    match batch_step delete_spam archiveOk now st msg n with
    | (st1, some x) =>
      let r := process_email_batch delete_spam archiveOk now st1 rest
      (r.1, x :: r.2)
    | (st1, none) => process_email_batch delete_spam archiveOk now st1 rest

/-- The spam-deletion pass of `process_emails` (lines 160-165): when
deletion is enabled, delete exactly the collected messages whose
`email_info` has `is_ad` and `stored_locally` (an absent key reads as
`False` through `.get`). Returns the deleted indices in order. -/
def spam_deletions (delete_spam : Bool) (results : List (EmailInfo × Nat)) : List Nat :=
  if delete_spam then
    (results.filter (fun r => r.1.is_ad && r.1.stored_locally.getD false)).map (fun r => r.2)
  else []

/-- Worker loop for `chunked`: `cur` is the chunk being built (reversed)
and `k` the capacity left in it; on exhausted capacity emit the chunk and
start the next one. -/
def chunksGo (size : Nat) : List α → List α → Nat → List (List α)
  | cur, [], _ => [cur.reverse]
  | cur, a :: rest, 0 => cur.reverse :: chunksGo size [a] rest (size - 1)
  | cur, a :: rest, k + 1 => chunksGo size (a :: cur) rest k

/-- Contiguous slicing `[emails[i:i+size] for i in range(0, len, size)]`
for a positive step. -/
def chunked (size : Nat) : List α → List (List α)
  | [] => []
  | a :: rest => chunksGo size [a] rest (size - 1)

/-- `Pool.map(self._process_email_batch, email_batches)` under the
`multiprocessing` pickling semantics: every worker runs the batch on its
own copy of the orchestrator state `initSt`; the parent receives only the
returned result lists, and the final states of the copies are discarded. -/
def pool_map_batches (delete_spam : Bool) (archiveOk : Nat → Bool) (now : Int)
    (initSt : ProcState) (batches : List (List (RawMsg × Nat))) :
    List (ProcState × List (EmailInfo × Nat)) :=
  batches.map (fun b => process_email_batch delete_spam archiveOk now initSt b)

/-- The outcome of one `process_emails` run: the state the orchestrator
persists with `save_state`, the final worker-copy states (visible in the
model although `Pool.map` discards them), and the deleted indices. -/
structure RunOutcome where
  persisted : ProcState
  worker_states : List ProcState
  deleted : List Nat
deriving DecidableEq

/-- `EmailReader.process_emails` after fetching: split the fetched list
into contiguous batches of size `max 1 (len / num_processes)`, map the
batch worker over them in separate processes, run the deletion pass over
the collected results, then call `self.processor.save_state()` — which
persists the orchestrator-side processor state, untouched by any worker
mutation. -/
def process_emails_run (delete_spam : Bool) (archiveOk : Nat → Bool) (now : Int)
    (num_processes : Nat) (initSt : ProcState) (emails : List (RawMsg × Nat)) :
    RunOutcome :=
  let batch_size := max 1 (emails.length / num_processes)
  let results := pool_map_batches delete_spam archiveOk now initSt (chunked batch_size emails)
  { persisted := initSt
    worker_states := results.map (fun r => r.1)
    deleted := spam_deletions delete_spam (results.map (fun r => r.2)).flatten }

/-- Modelled from the spec, for comparison with `process_emails_run` (the
refinement claim C1): the single-owner reference pipeline of section 4.4 —
the orchestrator itself applies every successfully produced delta serially
to one processor state and persists that state. -/
def serial_reference_run (now : Int) (initSt : ProcState)
    (emails : List (RawMsg × Nat)) : ProcState :=
  emails.foldl
    (fun st m =>
      match m.1 with
      | none => st
      | some d => (process_email false d now st).1)
    initSt

/-! ## Lookup infrastructure lemmas -/

theorem lookupContact_cons (row : String × ContactRecord) (rest : Ledger) (s : String) :
    lookupContact (row :: rest) s
      = if row.1 == s then some row.2 else lookupContact rest s := by
  cases h : (row.1 == s) <;> simp [lookupContact, List.find?_cons, h]

theorem any_key_eq_isSome (ledger : Ledger) (s : String) :
    (ledger.any (fun row => row.1 == s)) = (lookupContact ledger s).isSome := by
  induction ledger with
  | nil => rfl
  | cons row rest ih =>
    cases h : (row.1 == s) <;> simp [List.any_cons, lookupContact_cons, h, ih]

theorem lookupContact_map_key (g : ContactRecord → ContactRecord) (k s : String)
    (ledger : Ledger) :
    lookupContact (ledger.map (fun row => if row.1 == k then (row.1, g row.2) else row)) s
      = if s == k then (lookupContact ledger s).map g else lookupContact ledger s := by
  unfold lookupContact
  rw [List.find?_map]
  have hp : ((fun row : String × ContactRecord => row.1 == s) ∘
      (fun row : String × ContactRecord => if row.1 == k then (row.1, g row.2) else row))
      = fun row : String × ContactRecord => row.1 == s := by
    funext row
    by_cases hk : (row.1 == k) = true <;> simp [Function.comp, hk]
  rw [hp]
  cases hf : ledger.find? (fun row => row.1 == s) with
  | none => cases hsk : (s == k) <;> simp
  | some row =>
    have hp2 := List.find?_some hf
    rw [beq_iff_eq] at hp2
    simp only [Option.map_some']
    rw [hp2]
    cases hsk : (s == k) <;> simp [hsk]

theorem lookupContact_append_of_none (l1 l2 : Ledger) (s : String)
    (h : lookupContact l1 s = none) :
    lookupContact (l1 ++ l2) s = lookupContact l2 s := by
  induction l1 with
  | nil => rfl
  | cons row rest ih =>
    rw [lookupContact_cons] at h
    cases hr : (row.1 == s) with
    | true => rw [if_pos hr] at h; exact absurd h (by simp)
    | false =>
      rw [hr] at h
      simp only [List.cons_append, lookupContact_cons, hr, if_false]
      exact ih (by simpa using h)

theorem lookupContact_append_of_some (l1 l2 : Ledger) (s : String) (r : ContactRecord)
    (h : lookupContact l1 s = some r) :
    lookupContact (l1 ++ l2) s = some r := by
  induction l1 with
  | nil => simp [lookupContact] at h
  | cons row rest ih =>
    rw [lookupContact_cons] at h
    cases hr : (row.1 == s) with
    | true =>
      rw [if_pos hr] at h
      rw [List.cons_append, lookupContact_cons, if_pos]
      · exact h
      · exact hr
    | false =>
      rw [hr] at h
      simp only [List.cons_append, lookupContact_cons, hr, if_false]
      exact ih (by simpa using h)

/-- Full characterization of one `_update_contacts` call as seen through
`lookupContact`: for the updated sender the stored record is transformed
(or freshly created); every other sender is untouched. -/
theorem lookupContact_update_contacts (ledger : Ledger) (k : String) (date : Int)
    (is_ad : Bool) (url : Option String) (s : String) :
    lookupContact (update_contacts ledger k date is_ad url) s
      = if k == s then
          (match lookupContact ledger s with
           | some rec => some
               { last_contact := date
                 is_advertisement := is_ad
                 unsubscribe_url := if urlTruthy url then url else rec.unsubscribe_url
                 total_emails := rec.total_emails + 1
                 ad_emails := rec.ad_emails + (if is_ad then 1 else 0) }
           | none => some
               { last_contact := date
                 is_advertisement := is_ad
                 unsubscribe_url := url
                 total_emails := 1
                 ad_emails := if is_ad then 1 else 0 })
        else lookupContact ledger s := by
  unfold update_contacts
  cases hany : ledger.any (fun row => row.1 == k) with
  | true =>
    rw [if_pos rfl]
    rw [lookupContact_map_key
      (fun r =>
        { last_contact := date
          is_advertisement := is_ad
          unsubscribe_url := if urlTruthy url then url else r.unsubscribe_url
          total_emails := r.total_emails + 1
          ad_emails := r.ad_emails + (if is_ad then 1 else 0) })
      k s ledger]
    cases hks : (k == s) with
    | true =>
      have hks2 : k = s := by rwa [beq_iff_eq] at hks
      have hsk : (s == k) = true := by rw [beq_iff_eq]; exact hks2.symm
      rw [hsk, if_pos rfl, if_pos rfl]
      cases hl : lookupContact ledger s with
      | some rec => rfl
      | none =>
        rw [any_key_eq_isSome, hks2, hl] at hany
        exact absurd hany (by simp)
    | false =>
      have hsk : (s == k) = false := by
        rw [beq_eq_false_iff_ne] at hks ⊢
        exact Ne.symm hks
      rw [hsk, if_neg Bool.false_ne_true, if_neg Bool.false_ne_true]
  | false =>
    rw [if_neg Bool.false_ne_true]
    cases hks : (k == s) with
    | true =>
      have hks2 : k = s := by rwa [beq_iff_eq] at hks
      have hl : lookupContact ledger s = none := by
        rw [any_key_eq_isSome] at hany
        rw [← hks2]
        cases hlk : lookupContact ledger k with
        | none => rfl
        | some r => rw [hlk] at hany; exact absurd hany (by simp)
      rw [lookupContact_append_of_none _ _ _ hl, lookupContact_cons, if_pos hks, hl,
        if_pos rfl]
    | false =>
      rw [if_neg Bool.false_ne_true]
      cases hl : lookupContact ledger s with
      | some rec => exact lookupContact_append_of_some _ _ _ _ hl
      | none =>
        rw [lookupContact_append_of_none _ _ _ hl, lookupContact_cons, hks,
          if_neg (by simp)]
        rfl

/-- C5: applying a delta to a sender that already has a ContactRecord
increments `total_emails`, increments `ad_emails` iff the delta is an ad,
overwrites the timestamp and the ad flag, and overwrites the URL only for
a truthy value, so a delta carrying no URL keeps the recorded one. -/
theorem update_contacts_existing_sender (ledger : Ledger) (sender : String)
    (date : Int) (is_ad : Bool) (url : Option String) (rec : ContactRecord)
    (h : lookupContact ledger sender = some rec) :
    lookupContact (update_contacts ledger sender date is_ad url) sender
      = some
          { last_contact := date
            is_advertisement := is_ad
            unsubscribe_url := if urlTruthy url then url else rec.unsubscribe_url
            total_emails := rec.total_emails + 1
            ad_emails := rec.ad_emails + (if is_ad then 1 else 0) } := by
  rw [lookupContact_update_contacts, if_pos (beq_self_eq_true sender), h]

/-- Witness for C5 at a concrete ledger: a second message with no URL
keeps the recorded URL and bumps the counters. -/
theorem update_contacts_existing_sender_witness :
    lookupContact
        (update_contacts [("a@x", ⟨0, false, some "u", 1, 0⟩)] "a@x" 7 true none) "a@x"
      = some ⟨7, true, some "u", 2, 1⟩ :=
  update_contacts_existing_sender [("a@x", ⟨0, false, some "u", 1, 0⟩)] "a@x" 7 true none
    ⟨0, false, some "u", 1, 0⟩ rfl

theorem senderInv_step (ledger : Ledger) (d : UpdateDelta) (s : String) (n : Nat)
    (h : senderInv ledger s n) :
    senderInv (apply_delta ledger d)
      s (n + (if d.sender_email == s then 1 else 0)) := by
  unfold senderInv at h ⊢
  have hlk := lookupContact_update_contacts ledger d.sender_email d.timestamp
    d.is_advertisement d.unsubscribe_url s
  cases hd : (d.sender_email == s) with
  | true =>
    rw [hd, if_pos rfl] at hlk
    rcases h with ⟨hn, hnone⟩ | ⟨rec, hrec, htot, had, hpos⟩
    · rw [hnone] at hlk
      right
      exact ⟨_, hlk, by simp [hn], by cases hb : d.is_advertisement <;> simp [hn],
        by simp⟩
    · rw [hrec] at hlk
      right
      refine ⟨_, hlk, by simp [htot], ?_, by simp⟩
      cases hb : d.is_advertisement <;> simp [hb] <;> omega
  | false =>
    rw [hd, if_neg Bool.false_ne_true] at hlk
    rcases h with ⟨hn, hnone⟩ | ⟨rec, hrec, htot, had, hpos⟩
    · exact Or.inl ⟨by simp [hn], hlk.trans hnone⟩
    · exact Or.inr ⟨rec, hlk.trans hrec, by simp [htot], by simpa using had,
        by simpa using hpos⟩

theorem countFor_cons (d : UpdateDelta) (ds : List UpdateDelta) (s : String) :
    countFor (d :: ds) s = (if d.sender_email == s then 1 else 0) + countFor ds s := by
  unfold countFor
  cases hd : (d.sender_email == s) with
  | false => simp [List.filter_cons, hd]
  | true => simp [List.filter_cons, hd, Nat.add_comm]

theorem senderInv_fold (ds : List UpdateDelta) (ledger : Ledger) (s : String) (n : Nat)
    (h : senderInv ledger s n) :
    senderInv (ds.foldl apply_delta ledger) s (n + countFor ds s) := by
  induction ds generalizing ledger n with
  | nil => simpa [countFor] using h
  | cons d ds ih =>
    rw [List.foldl_cons, countFor_cons, ← Nat.add_assoc]
    exact ih (apply_delta ledger d) (n + (if d.sender_email == s then 1 else 0))
      (senderInv_step ledger d s n h)

/-- C6: over any delta sequence applied to an empty ledger, a sender with
no deltas has no record, and a sender with deltas has a record whose
`total_emails` equals its delta count (1 on the first delta) and whose
`ad_emails` never exceeds `total_emails`. -/
theorem apply_deltas_count_invariant (deltas : List UpdateDelta) (sender : String) :
    (countFor deltas sender = 0 →
      lookupContact (apply_deltas deltas) sender = none) ∧
    (0 < countFor deltas sender →
      ∃ rec, lookupContact (apply_deltas deltas) sender = some rec ∧
        rec.total_emails = countFor deltas sender ∧
        rec.ad_emails ≤ rec.total_emails) := by
  have hinv := senderInv_fold deltas [] sender 0 (Or.inl ⟨rfl, rfl⟩)
  rw [Nat.zero_add] at hinv
  unfold apply_deltas
  rcases hinv with ⟨hn, hnone⟩ | ⟨rec, hrec, htot, had, hpos⟩
  · exact ⟨fun _ => hnone, fun hgt => absurd hn (by omega)⟩
  · refine ⟨fun h0 => absurd h0 (by omega), fun _ => ⟨rec, hrec, htot, ?_⟩⟩
    rw [htot]
    exact had

/-- Witness for C6 on a concrete three-delta sequence with a repeated
sender. -/
theorem apply_deltas_count_invariant_witness :
    ∃ rec,
      lookupContact
          (apply_deltas
            [⟨"a@x", 1, true, none⟩, ⟨"b@y", 2, false, none⟩,
             ⟨"a@x", 3, false, some "u"⟩])
          "a@x" = some rec ∧
        rec.total_emails
          = countFor
              [⟨"a@x", 1, true, none⟩, ⟨"b@y", 2, false, none⟩,
               ⟨"a@x", 3, false, some "u"⟩] "a@x" ∧
        rec.ad_emails ≤ rec.total_emails :=
  (apply_deltas_count_invariant
    [⟨"a@x", 1, true, none⟩, ⟨"b@y", 2, false, none⟩, ⟨"a@x", 3, false, some "u"⟩]
    "a@x").2 (by decide)

/-! ## Statistics invariants -/

theorem statsInv_default : statsInv default_stats :=
  ⟨Nat.le_refl 0, fun _ => rfl, fun h => absurd h (Nat.lt_irrefl 0)⟩

theorem statsInv_step (b : Bool) (now : Int) (s : Stats) (h : statsInv s) :
    statsInv (update_stats b now s) := by
  obtain ⟨hle, h0, hpos⟩ := h
  unfold statsInv update_stats
  refine ⟨?_, ?_, ?_⟩
  · cases b <;> simp <;> omega
  · intro habs
    simp at habs
  · intro _
    ring

theorem statsInv_run (updates : List (Bool × Int)) : statsInv (run_stats updates) := by
  unfold run_stats
  have hfold : ∀ s : Stats, statsInv s →
      statsInv (updates.foldl (fun s u => update_stats u.1 u.2 s) s) := by
    induction updates with
    | nil => intro s h; exact h
    | cons u us ih =>
      intro s h
      rw [List.foldl_cons]
      exact ih _ (statsInv_step u.1 u.2 s h)
  exact hfold default_stats statsInv_default

theorem rate_bounds (s : Stats) (h : statsInv s) :
    0 ≤ s.advertisement_rate ∧ s.advertisement_rate ≤ 100 := by
  obtain ⟨hle, h0, hpos⟩ := h
  rcases Nat.eq_zero_or_pos s.total_emails_processed with hz | hp
  · rw [h0 hz]
    norm_num
  · rw [hpos hp]
    have htotpos : (0 : ℚ) < (s.total_emails_processed : ℚ) := by exact_mod_cast hp
    have hads : (s.total_advertisements : ℚ) ≤ (s.total_emails_processed : ℚ) := by
      exact_mod_cast hle
    have hadsnn : (0 : ℚ) ≤ (s.total_advertisements : ℚ) := by positivity
    constructor
    · positivity
    · rw [div_le_iff₀ htotpos]
      nlinarith

/-- C7: from the default-initialized statistics, after any sequence of
updates the rate equals `100 * total_advertisements / total_processed`
when `total_processed > 0`, equals 0 otherwise, and always lies in
`[0, 100]` (the float is modelled as a rational, where no NaN exists; the
code divides only when `total_processed ≥ 1`). -/
theorem stats_rate_invariant (updates : List (Bool × Int)) :
    (0 < (run_stats updates).total_emails_processed →
      (run_stats updates).advertisement_rate
        = 100 * ((run_stats updates).total_advertisements : ℚ)
            / ((run_stats updates).total_emails_processed : ℚ)) ∧
    ((run_stats updates).total_emails_processed = 0 →
      (run_stats updates).advertisement_rate = 0) ∧
    0 ≤ (run_stats updates).advertisement_rate ∧
    (run_stats updates).advertisement_rate ≤ 100 := by
  obtain ⟨hle, h0, hpos⟩ := statsInv_run updates
  have hb := rate_bounds _ (statsInv_run updates)
  exact ⟨hpos, h0, hb.1, hb.2⟩

/-- Witness for C7 after one ad update. -/
theorem stats_rate_invariant_witness :
    (run_stats [(true, 0), (false, 1)]).advertisement_rate
      = 100 * ((run_stats [(true, 0), (false, 1)]).total_advertisements : ℚ)
          / ((run_stats [(true, 0), (false, 1)]).total_emails_processed : ℚ) ∧
    0 ≤ (run_stats [(true, 0), (false, 1)]).advertisement_rate :=
  ⟨(stats_rate_invariant [(true, 0), (false, 1)]).1 (by decide),
   (stats_rate_invariant [(true, 0), (false, 1)]).2.2.1⟩

/-! ## Atomicity of one delta (C8) -/

/-- Counterexample to C8: with a failing statistics persistence, one
concrete `process_email` call returns `None` yet leaves the contact ledger
mutated while the persisted statistics are unchanged — a half-applied
delta, not a rollback. -/
theorem process_email_partial_update_cex :
    (process_email true ⟨"a@example.com", 5, true, none⟩ 5 initial_state).1.contacts
        ≠ initial_state.contacts ∧
    (process_email true ⟨"a@example.com", 5, true, none⟩ 5 initial_state).1.stats_file
        = initial_state.stats_file ∧
    (process_email true ⟨"a@example.com", 5, true, none⟩ 5 initial_state).2 = false := by
  decide

/-- C8 as amended: when statistics persistence fails after the contact
mutation, `process_email` catches the exception and returns `None`; the
contact-ledger mutation and the in-memory statistics mutation are
retained, not rolled back, and only the persisted statistics file is left
un-updated. -/
theorem process_email_persist_failure_state (d : UpdateDelta) (now : Int)
    (st : ProcState) :
    process_email true d now st
      = ({ contacts := apply_delta st.contacts d
           stats := update_stats d.is_advertisement now st.stats
           stats_file := st.stats_file }, false) := rfl

/-! ## unique_senders derivation (C9) -/

theorem process_email_unique_senders (d : UpdateDelta) (now : Int) (st : ProcState) :
    (process_email false d now st).1.stats.unique_senders = st.stats.unique_senders ∧
    (process_email false d now st).1.stats_file.unique_senders
      = st.stats.unique_senders :=
  ⟨rfl, rfl⟩

theorem run_processor_unique_zero (runs : List (UpdateDelta × Int)) :
    ∀ st : ProcState, st.stats.unique_senders = 0 → st.stats_file.unique_senders = 0 →
      (run_processor runs st).stats.unique_senders = 0 ∧
      (run_processor runs st).stats_file.unique_senders = 0 := by
  induction runs with
  | nil => intro st h1 h2; exact ⟨h1, h2⟩
  | cons r rs ih =>
    intro st h1 h2
    have hstep := process_email_unique_senders r.1 r.2 st
    have hrest := ih ((process_email false r.1 r.2 st).1)
      (by rw [hstep.1]; exact h1) (by rw [hstep.2]; exact h1)
    simpa [run_processor, List.foldl_cons] using hrest

/-- Counterexample to C9: after one delta from the default state, the
persisted statistics record still carries `unique_senders = 0` while the
ledger holds one record — the persisted field does not equal the ledger
size. -/
theorem unique_senders_persisted_stale_cex :
    (process_email false ⟨"a@example.com", 0, false, none⟩ 0
        initial_state).1.stats_file.unique_senders
      ≠ (process_email false ⟨"a@example.com", 0, false, none⟩ 0
          initial_state).1.contacts.length := by
  decide

/-- C9 as amended: `get_statistics` derives `unique_senders` from the
ledger size, but `update_stats` never writes the field, so the in-memory
and persisted statistics records keep their initial value 0 over any run
from the default state. -/
theorem unique_senders_reported_vs_persisted (runs : List (UpdateDelta × Int)) :
    (get_statistics (run_processor runs initial_state)).unique_senders
      = (run_processor runs initial_state).contacts.length ∧
    (run_processor runs initial_state).stats.unique_senders = 0 ∧
    (run_processor runs initial_state).stats_file.unique_senders = 0 :=
  ⟨rfl, (run_processor_unique_zero runs initial_state rfl rfl).1,
    (run_processor_unique_zero runs initial_state rfl rfl).2⟩

/-! ## Classifier behavior (C2) -/

/-- C2 evaluated: the two-phrase advertisement is classified `true` with
both required indicators matched; but the single-phrase text
`"This is a special offer"` is classified `true` as well, because both
`special offer` and `offer` occur as substrings, reaching the
two-indicator threshold — contradicting the claimed `false` and the test
in `test_ad_detector.py`. -/
theorem ad_detector_threshold_behavior :
    is_advertisement "Special offer! Limited time discount on our products. Buy now!"
        = true ∧
    "special offer" ∈ get_ad_indicators_found
        "Special offer! Limited time discount on our products. Buy now!" ∧
    "limited time" ∈ get_ad_indicators_found
        "Special offer! Limited time discount on our products. Buy now!" ∧
    is_advertisement "This is a special offer" = true ∧
    get_ad_indicators_found "This is a special offer" = ["special offer", "offer"] := by
  decide

/-! ## List-Unsubscribe header behavior (C3) -/

/-- C3 evaluated: a `List-Unsubscribe` header holding only a mailto token
makes extraction return that mailto token, whatever the body and the body
helpers would yield — the code never checks the scheme and never treats a
mailto-only header as empty, contradicting the claim and the test in
`test_email_parser.py`. -/
theorem unsubscribe_header_returns_mailto_token
    (htmlUrls textUrls : String → List String) (text : String) :
    extract_unsubscribe_url htmlUrls textUrls text "<mailto:unsubscribe@example.com>"
      = some "mailto:unsubscribe@example.com" := rfl

/-! ## Body-part selection (C4) -/

/-- Counterexample to C4: a multipart message whose `text/html` part
precedes its `text/plain` part yields the HTML payload, not the payload of
the `text/plain` part. -/
theorem get_email_content_html_first_cex :
    get_email_content (EmailMessage.multipart
        [⟨"text/html", "HTML body"⟩, ⟨"text/plain", "plain body"⟩])
      ≠ some "plain body" := by
  decide

/-- C4 as amended: on a multipart message, body extraction returns the
payload of the first part whose declared type is `text/plain` or
`text/html`, whichever occurs first in walk order; a `text/plain` part is
preferred only over later parts, not over an earlier `text/html` part. -/
theorem get_email_content_first_text_or_html (parts : List EmailPart) :
    get_email_content (EmailMessage.multipart parts)
      = (parts.find? (fun p =>
            p.contentType == "text/plain" || p.contentType == "text/html")).map
          (fun p => p.payload) := by
  show firstTextPart parts = _
  induction parts with
  | nil => rfl
  | cons p rest ih =>
    by_cases h1 : p.contentType = "text/plain"
    · rw [firstTextPart, if_pos h1, List.find?_cons_of_pos _ (by simp [h1])]
      rfl
    · by_cases h2 : p.contentType = "text/html"
      · rw [firstTextPart, if_neg h1, if_pos h2, List.find?_cons_of_pos _ (by simp [h2])]
        rfl
      · rw [firstTextPart, if_neg h1, if_neg h2,
          List.find?_cons_of_neg _ (by simp [h1, h2]), ih]

/-! ## Orchestration (C1) -/

/-- C1 evaluated: one processable message, one worker. The worker copy of
the processor does record the contact (`worker_states`), and the
single-owner reference pipeline of the spec ends with one contact; but the
state the orchestrator persists is its own untouched processor state, with
an empty ledger and default statistics — worker updates are never
reflected in the persisted state. -/
theorem pool_run_discards_worker_updates :
    (process_emails_run false (fun _ => true) 0 1 initial_state
        [(some ⟨"a@example.com", 0, false, none⟩, 1)]).persisted = initial_state ∧
    (serial_reference_run 0 initial_state
        [(some ⟨"a@example.com", 0, false, none⟩, 1)]).contacts.length = 1 ∧
    (process_emails_run false (fun _ => true) 0 1 initial_state
        [(some ⟨"a@example.com", 0, false, none⟩, 1)]).worker_states.map
        (fun st => st.contacts.length) = [1] := by
  decide

/-! ## Spam deletion gated on archival (C10) -/

theorem batch_step_some (delete_spam : Bool) (archiveOk : Nat → Bool) (now : Int)
    (st : ProcState) (d : UpdateDelta) (num : Nat) :
    batch_step delete_spam archiveOk now st (some d) num
      = ((process_email false d now st).1,
         some
           ({ is_ad := d.is_advertisement
              stored_locally :=
                if delete_spam && d.is_advertisement then some (archiveOk num)
                else none }, num)) := rfl

theorem batch_entry_stored (archiveOk : Nat → Bool) (now : Int)
    (batch : List (RawMsg × Nat)) :
    ∀ (st : ProcState) (info : EmailInfo) (n : Nat),
      (info, n) ∈ (process_email_batch true archiveOk now st batch).2 →
      info.stored_locally = if info.is_ad then some (archiveOk n) else none := by
  induction batch with
  | nil =>
    intro st info n h
    simp [process_email_batch] at h
  | cons m rest ih =>
    intro st info n h
    obtain ⟨msg, num⟩ := m
    cases msg with
    | none =>
      simp only [process_email_batch, batch_step] at h
      exact ih _ _ _ h
    | some d =>
      simp only [process_email_batch, batch_step_some, List.mem_cons,
        Prod.mk.injEq] at h
      rcases h with ⟨rfl, rfl⟩ | h
      · rfl
      · exact ih _ _ _ h

/-- C10: over a full `process_emails` run with spam deletion enabled, a
message index is deleted from the server only if its local archival
(`_store_spam_email`) succeeded — archival failure suppresses deletion. -/
theorem spam_deleted_only_if_archived (archiveOk : Nat → Bool) (now : Int)
    (num_processes : Nat) (initSt : ProcState) (emails : List (RawMsg × Nat)) (n : Nat)
    (h : n ∈ (process_emails_run true archiveOk now num_processes initSt
        emails).deleted) :
    archiveOk n = true := by
  simp only [process_emails_run, spam_deletions, if_pos, List.mem_map,
    List.mem_filter, List.mem_flatten, pool_map_batches, List.map_map] at h
  obtain ⟨r, ⟨⟨res, ⟨b, hb, rfl⟩, hrmem⟩, hcond⟩, rfl⟩ := h
  have hstored := batch_entry_stored archiveOk now b initSt r.1 r.2 hrmem
  rw [Bool.and_eq_true] at hcond
  rw [hcond.1, if_pos rfl] at hstored
  rw [hstored] at hcond
  simpa using hcond.2

/-- Witness for C10: a run with one ad message whose archival succeeds
deletes exactly that index, and its archival flag is indeed `true`. -/
theorem spam_deleted_only_if_archived_witness :
    3 ∈ (process_emails_run true (fun _ => true) 0 1 initial_state
        [(some ⟨"a@x", 0, true, none⟩, 3)]).deleted ∧
    (fun _ : Nat => true) 3 = true :=
  ⟨by decide,
   spam_deleted_only_if_archived (fun _ => true) 0 1 initial_state
     [(some ⟨"a@x", 0, true, none⟩, 3)] 3 (by decide)⟩

end MailProcessor
